import Mathlib

/-!
Shallow embedding of `seal/task/attribute_recognition.py`
(`InstanceAttributeRecognitionTask`), the task-orchestration layer that
wires datasets, loaders, a model, an evaluation object and checkpoint
persistence into a train/eval lifecycle.

Modelling conventions:
* mAP scores (Python floats compared with `>`) are rationals `ℚ`;
* the checkpoint file at the single checkpoint path is `Option Nat`:
  `some i` means the file holds the model parameters saved in epoch `i`,
  `none` means the file is absent (or unreadable);
* Python exceptions escaping a function are `Except.error`;
* the external evaluation object is abstracted by the scores it would
  return (`valMAP : Nat → ℚ` per epoch, `testEvalMAP : ℚ` for the test
  pass) and by a trace of how the task invokes it (`EvalCall`);
* `torch.save` success/failure in epoch `i` is `saveOk i : Bool`;
* whether the dataset built for a split supplies a `collate_fn`
  attribute is `hasCollate : String → Bool` indexed by the split name.
-/

namespace Seal

/-- Which object of the task is passed as an argument to the evaluation
object at a call site. -/
inductive EArg where
  | model
  | valloader
  | testloader
deriving DecidableEq, Repr

/-- One invocation of the evaluation object: which object ends up bound to
its `model` parameter, which to its `dataloader` parameter, and whether
`get_mAP()` is read after the call returns. -/
structure EvalCall where
  toModelParam : EArg
  toDataloaderParam : EArg
  getMAPAfter : Bool
deriving DecidableEq, Repr

/-! ### prepare -/

/-- A data loader as configured by `prepare`: the split of its dataset, its
batch size, and whether it falls back to the default batcher because no
dataset-supplied collation function was found. -/
structure LoaderCfg where
  split : String
  batch_size : Nat
  usesDefaultCollate : Bool
deriving DecidableEq, Repr

/-- A component constructed by `prepare`, in construction order. -/
inductive BuildEvent where
  | model
  | evaluation
  | trainUtil
  | pipeline (mode : String)
  | dataset (split : String)
  | loader (cfg : LoaderCfg)
deriving DecidableEq, Repr

/-- Outcome of `prepare`: the components built, in order, and the error
raised (`none` when `prepare` returns normally).  An error recorded
together with an empty event list models a raise before any component was
constructed. -/
structure PrepareResult where
  events : List BuildEvent
  error : Option String
deriving DecidableEq, Repr

/-- The message of the `ValueError` raised on an invalid mode. -/
def modeErrorMsg : String :=
  "The InstanceAttributeRecognitionTask's mode must be train or eval"

/-- `InstanceAttributeRecognitionTask.prepare`.  `mode` is `self.mode`;
`trainBatch` is `train_settings["batch_size"]`; `evalBatch` is
`eval_settings["batch_size"]`; `hasCollate s` tells whether the dataset
built for split `s` has a `collate_fn` attribute (the `try/except` around
the attribute access). -/
def prepare (mode : String) (trainBatch evalBatch : Nat)
    (hasCollate : String → Bool) : PrepareResult :=
  if mode ≠ "train" ∧ mode ≠ "test" then
    { events := [], error := some modeErrorMsg }
  else
    let pre : List BuildEvent := [.model, .evaluation, .trainUtil]
    if mode = "train" then
      let cd := !hasCollate "train"
      { events := pre ++
          [.pipeline "train", .pipeline "evalu",
           .dataset "train", .dataset "val", .dataset "test",
           .loader ⟨"train", trainBatch, cd⟩,
           .loader ⟨"val", trainBatch, cd⟩,
           .loader ⟨"test", trainBatch, cd⟩],
        error := none }
    else
      let cd := !hasCollate "test"
      { events := pre ++
          [.pipeline "evalu", .dataset "test",
           .loader ⟨"test", evalBatch, cd⟩],
        error := none }

/-- The loaders constructed by a `prepare` run, in order. -/
def loadersOf (r : PrepareResult) : List LoaderCfg :=
  r.events.filterMap fun e =>
    match e with
    | .loader c => some c
    | _ => none

/-- The transform pipelines constructed by a `prepare` run, in order,
identified by their `mode` argument. -/
def pipelinesOf (r : PrepareResult) : List String :=
  r.events.filterMap fun e =>
    match e with
    | .pipeline m => some m
    | _ => none

/-! ### train -/

/-- The mutable state of the training loop in
`InstanceAttributeRecognitionTask.train`: the `highest_mAP` accumulator,
the content of the checkpoint file (`some i` = weights of epoch `i`), the
Python variable `mAP` (`none` before the first epoch assigns it), the
number of `"Save Model Weight Failed!"` messages, the number of completed
epochs, and the trace of evaluation-object invocations. -/
structure TrainState where
  highest : ℚ
  disk : Option Nat
  lastMAP : Option ℚ
  saveFailures : Nat
  epochsRun : Nat
  calls : List EvalCall
deriving DecidableEq, Repr

/-- Loop state at entry of the training loop: `highest_mAP = 0.`, the
checkpoint file as the filesystem left it, `mAP` unassigned. -/
def initState (disk0 : Option Nat) : TrainState :=
  { highest := 0, disk := disk0, lastMAP := none,
    saveFailures := 0, epochsRun := 0, calls := [] }

/-- One iteration of the training loop: run the train-step, invoke the
evaluation object with `model=self.model, dataloader=self.valloader`, read
`mAP = self.evaluation.get_mAP()`, step the scheduler, and if
`mAP > highest_mAP` update `highest_mAP` and try to `torch.save` the
current weights to the checkpoint path. -/
def trainEpoch (valMAP : Nat → ℚ) (saveOk : Nat → Bool)
    (s : TrainState) (i : Nat) : TrainState :=
  let m := valMAP i
  let s' : TrainState :=
    { s with lastMAP := some m, epochsRun := s.epochsRun + 1,
             calls := s.calls ++ [⟨.model, .valloader, true⟩] }
  if m > s'.highest then
    if saveOk i then
      { s' with highest := m, disk := some i }
    else
      { s' with highest := m, saveFailures := s'.saveFailures + 1 }
  else
    s'

/-- The training loop of `train`, run for `N` epochs. -/
def trainLoop (valMAP : Nat → ℚ) (saveOk : Nat → Bool)
    (disk0 : Option Nat) (N : Nat) : TrainState :=
  (List.range N).foldl (trainEpoch valMAP saveOk) (initState disk0)

/-- What a successful `train` run reports after the loop: the value printed
under `test_mAP`, the epoch whose weights were reloaded from the
checkpoint file, and the full trace of evaluation-object invocations. -/
structure TrainReport where
  test_mAP : ℚ
  loadedEpoch : Nat
  calls : List EvalCall
deriving DecidableEq, Repr

/-- The exception escaping `train` when `torch.load` finds no file at the
checkpoint path. -/
def fileNotFoundMsg : String := "FileNotFoundError"

/-- The exception escaping `train` when the loop ran zero epochs and the
variable `mAP` was never assigned. -/
def nameErrorMsg : String := "NameError: name mAP is not defined"

/-- `InstanceAttributeRecognitionTask.train`: run the loop, then
unconditionally `torch.load` the checkpoint path (raising if the file is
absent), strictly reload it, invoke the evaluation object with
`model=self.model, dataloader=self.testloader`, and print
`{"test_mAP": mAP}` — reusing the loop variable `mAP`, never calling
`get_mAP` after the test pass.  `testEvalMAP` is the score the evaluation
object would return via `get_mAP()` after that test pass; the code never
reads it. -/
def train (N : Nat) (valMAP : Nat → ℚ) (saveOk : Nat → Bool)
    (testEvalMAP : ℚ) (disk0 : Option Nat) : Except String TrainReport :=
  let s := trainLoop valMAP saveOk disk0 N
  match s.disk with
  | none => .error fileNotFoundMsg
  | some w =>
    match s.lastMAP with
    | none => .error nameErrorMsg
    | some m =>
      .ok { test_mAP := m, loadedEpoch := w,
            calls := s.calls ++ [⟨.model, .testloader, false⟩] }

/-! ### eval -/

/-- A serialized parameter state: parameter names mapped to abstract
parameter values. -/
abbrev StateDict := List (String × Int)

/-- Key lookup in a state dict. -/
def sdLookup (sd : StateDict) (k : String) : Option Int :=
  match sd.find? (fun p => p.1 == k) with
  | some p => some p.2
  | none => none

/-- Outcome of `InstanceAttributeRecognitionTask.eval`: the model's
parameters when the evaluation runs, the reported missing/unexpected keys
of the non-strict load, whether the
`"Cannot find the weight! Using Initialized Weight"` warning was printed,
and the trace of evaluation-object invocations. -/
structure EvalOutcome where
  finalModel : StateDict
  missing : List String
  unexpected : List String
  warnedFallback : Bool
  calls : List EvalCall
deriving DecidableEq, Repr

/-- `InstanceAttributeRecognitionTask.eval`: try to `torch.load` the
checkpoint onto CPU and `load_state_dict(..., strict=False)`; on any
failure (`disk = none`: file absent or unreadable) print a warning and
keep the current weights; in both cases proceed to invoke the evaluation
object — positionally, as `self.evaluation(self.testloader, self.model)`,
with no `get_mAP` read afterwards. -/
def evalTask (disk : Option StateDict) (model : StateDict) : EvalOutcome :=
  match disk with
  | none =>
    { finalModel := model, missing := [], unexpected := [],
      warnedFallback := true,
      calls := [⟨.testloader, .model, false⟩] }
  | some sd =>
    let newModel := model.map fun p =>
      match sdLookup sd p.1 with
      | some v => (p.1, v)
      | none => p
    { finalModel := newModel,
      missing := (model.map Prod.fst).filter fun k => (sdLookup sd k).isNone,
      unexpected := (sd.map Prod.fst).filter fun k => (sdLookup model k).isNone,
      warnedFallback := false,
      calls := [⟨.testloader, .model, false⟩] }

/-! ### checkpoint path -/

/-- Whether a path string starts with the separator `/` (posixpath's
absolute-path test on the second component of `join`). -/
def startsWithSlash (b : String) : Bool :=
  match b.data with
  | [] => false
  | c :: _ => c = '/'

/-- Whether a path string ends with the separator `/`. -/
def endsWithSlash (a : String) : Bool :=
  match a.data.getLast? with
  | some c => c = '/'
  | none => false

/-- Python `os.path.join` for two components (posixpath). -/
def osPathJoin (a b : String) : String :=
  if startsWithSlash b then b
  else if a = "" ∨ endsWithSlash a then a ++ b
  else a ++ "/" ++ b

/-- `weight_name = self.project + "-model-highest.pth"`. -/
def weightName (project : String) : String := project ++ "-model-highest.pth"

/-- Checkpoint path at the save site in `train`
(`torch.save(..., op.join(self.d_weight, weight_name))`). -/
def savePath (d_weight project : String) : String :=
  osPathJoin d_weight (weightName project)

/-- Checkpoint path at the end-of-training reload site in `train`
(`torch.load(op.join(self.d_weight, weight_name), ...)`). -/
def finalLoadPath (d_weight project : String) : String :=
  osPathJoin d_weight (weightName project)

/-- Checkpoint path at the load site in `eval`
(`torch.load(op.join(self.d_weight, weight_name), map_location=cpu)`). -/
def evalLoadPath (d_weight project : String) : String :=
  osPathJoin d_weight (weightName project)

/-! ### Helper lemmas about prepare -/

theorem prepare_train_eq (tb eb : Nat) (hc : String → Bool) :
    prepare "train" tb eb hc =
      { events :=
          [.model, .evaluation, .trainUtil,
           .pipeline "train", .pipeline "evalu",
           .dataset "train", .dataset "val", .dataset "test",
           .loader ⟨"train", tb, !hc "train"⟩,
           .loader ⟨"val", tb, !hc "train"⟩,
           .loader ⟨"test", tb, !hc "train"⟩],
        error := none } := by
  unfold prepare
  rw [if_neg (by simp), if_pos rfl]
  rfl

theorem prepare_test_eq (tb eb : Nat) (hc : String → Bool) :
    prepare "test" tb eb hc =
      { events :=
          [.model, .evaluation, .trainUtil,
           .pipeline "evalu", .dataset "test",
           .loader ⟨"test", eb, !hc "test"⟩],
        error := none } := by
  unfold prepare
  rw [if_neg (by simp), if_neg (by simp)]
  rfl

theorem prepare_invalid_eq (mode : String) (tb eb : Nat) (hc : String → Bool)
    (h : mode ≠ "train" ∧ mode ≠ "test") :
    prepare mode tb eb hc = { events := [], error := some modeErrorMsg } := by
  unfold prepare
  rw [if_pos h]

/-! ### Helper lemmas about the training loop -/

/-- The save policy in which every `torch.save` succeeds. -/
def allSavesOk : Nat → Bool := fun _ => true

/-- The running maximum that `highest_mAP` tracks: `0` joined with the
first `N` validation scores. -/
def runMax (valMAP : Nat → ℚ) (N : Nat) : ℚ :=
  (List.range N).foldl (fun a i => max a (valMAP i)) 0

theorem trainLoop_zero (v : Nat → ℚ) (ok : Nat → Bool) (d0 : Option Nat) :
    trainLoop v ok d0 0 = initState d0 := rfl

theorem trainLoop_succ (v : Nat → ℚ) (ok : Nat → Bool) (d0 : Option Nat) (N : Nat) :
    trainLoop v ok d0 (N + 1) = trainEpoch v ok (trainLoop v ok d0 N) N := by
  unfold trainLoop
  rw [List.range_succ, List.foldl_append]
  rfl

theorem runMax_succ (v : Nat → ℚ) (N : Nat) :
    runMax v (N + 1) = max (runMax v N) (v N) := by
  unfold runMax
  rw [List.range_succ, List.foldl_append]
  rfl

theorem runMax_nonneg (v : Nat → ℚ) (N : Nat) : 0 ≤ runMax v N := by
  induction N with
  | zero => exact le_refl 0
  | succ n ih =>
    rw [runMax_succ]
    exact le_max_of_le_left ih

theorem le_runMax (v : Nat → ℚ) {j N : Nat} (h : j < N) : v j ≤ runMax v N := by
  induction N with
  | zero => omega
  | succ n ih =>
    rw [runMax_succ]
    rcases Nat.lt_succ_iff_lt_or_eq.mp h with h' | h'
    · exact le_max_of_le_left (ih h')
    · subst h'
      exact le_max_right _ _

theorem runMax_le (v : Nat → ℚ) {c : ℚ} (N : Nat)
    (hc : 0 ≤ c) (h : ∀ j, j < N → v j ≤ c) : runMax v N ≤ c := by
  induction N with
  | zero => exact hc
  | succ n ih =>
    rw [runMax_succ]
    exact max_le (ih fun j hj => h j (Nat.lt_succ_of_lt hj)) (h n (Nat.lt_succ_self n))

theorem runMax_lt_iff (v : Nat → ℚ) (N : Nat) (c : ℚ) :
    runMax v N < c ↔ 0 < c ∧ ∀ j, j < N → v j < c := by
  induction N with
  | zero =>
    constructor
    · intro h
      exact ⟨h, fun j hj => by omega⟩
    · intro h
      exact h.1
  | succ n ih =>
    rw [runMax_succ, max_lt_iff, ih]
    constructor
    · rintro ⟨⟨hc, hall⟩, hN⟩
      refine ⟨hc, fun j hj => ?_⟩
      rcases Nat.lt_succ_iff_lt_or_eq.mp hj with h' | h'
      · exact hall j h'
      · subst h'
        exact hN
    · rintro ⟨hc, hall⟩
      exact ⟨⟨hc, fun j hj => hall j (Nat.lt_succ_of_lt hj)⟩,
             hall n (Nat.lt_succ_self n)⟩

theorem trainEpoch_highest (v : Nat → ℚ) (ok : Nat → Bool) (s : TrainState) (i : Nat) :
    (trainEpoch v ok s i).highest = max s.highest (v i) := by
  simp only [trainEpoch]
  by_cases h : v i > s.highest
  · rw [if_pos h]
    by_cases hk : ok i
    · rw [if_pos hk]
      exact (max_eq_right (le_of_lt h)).symm
    · rw [if_neg hk]
      exact (max_eq_right (le_of_lt h)).symm
  · rw [if_neg h]
    exact (max_eq_left (not_lt.mp h)).symm

theorem trainEpoch_lastMAP (v : Nat → ℚ) (ok : Nat → Bool) (s : TrainState) (i : Nat) :
    (trainEpoch v ok s i).lastMAP = some (v i) := by
  simp only [trainEpoch]
  by_cases h : v i > s.highest
  · rw [if_pos h]
    by_cases hk : ok i
    · rw [if_pos hk]
    · rw [if_neg hk]
  · rw [if_neg h]

theorem trainEpoch_epochsRun (v : Nat → ℚ) (ok : Nat → Bool) (s : TrainState) (i : Nat) :
    (trainEpoch v ok s i).epochsRun = s.epochsRun + 1 := by
  simp only [trainEpoch]
  by_cases h : v i > s.highest
  · rw [if_pos h]
    by_cases hk : ok i
    · rw [if_pos hk]
    · rw [if_neg hk]
  · rw [if_neg h]

theorem trainEpoch_calls (v : Nat → ℚ) (ok : Nat → Bool) (s : TrainState) (i : Nat) :
    (trainEpoch v ok s i).calls = s.calls ++ [⟨.model, .valloader, true⟩] := by
  simp only [trainEpoch]
  by_cases h : v i > s.highest
  · rw [if_pos h]
    by_cases hk : ok i
    · rw [if_pos hk]
    · rw [if_neg hk]
  · rw [if_neg h]

theorem trainEpoch_disk_of_not_gt (v : Nat → ℚ) (ok : Nat → Bool)
    (s : TrainState) (i : Nat) (h : ¬ v i > s.highest) :
    (trainEpoch v ok s i).disk = s.disk := by
  simp only [trainEpoch]
  rw [if_neg h]

theorem trainEpoch_disk_of_gt_true (v : Nat → ℚ) (ok : Nat → Bool)
    (s : TrainState) (i : Nat) (h : v i > s.highest) (hk : ok i = true) :
    (trainEpoch v ok s i).disk = some i := by
  simp only [trainEpoch]
  rw [if_pos h, if_pos hk]

theorem trainEpoch_disk_of_false (v : Nat → ℚ) (ok : Nat → Bool)
    (s : TrainState) (i : Nat) (hk : ok i = false) :
    (trainEpoch v ok s i).disk = s.disk := by
  simp only [trainEpoch]
  by_cases h : v i > s.highest
  · rw [if_pos h, if_neg (by simp [hk])]
  · rw [if_neg h]

theorem trainLoop_highest (v : Nat → ℚ) (ok : Nat → Bool) (d0 : Option Nat) (N : Nat) :
    (trainLoop v ok d0 N).highest = runMax v N := by
  induction N with
  | zero => rfl
  | succ n ih =>
    rw [trainLoop_succ, trainEpoch_highest, ih, runMax_succ]

theorem trainLoop_epochsRun (v : Nat → ℚ) (ok : Nat → Bool) (d0 : Option Nat) (N : Nat) :
    (trainLoop v ok d0 N).epochsRun = N := by
  induction N with
  | zero => rfl
  | succ n ih =>
    rw [trainLoop_succ, trainEpoch_epochsRun, ih]

theorem trainLoop_lastMAP (v : Nat → ℚ) (ok : Nat → Bool) (d0 : Option Nat)
    (N : Nat) (h : 0 < N) :
    (trainLoop v ok d0 N).lastMAP = some (v (N - 1)) := by
  cases N with
  | zero => omega
  | succ n =>
    rw [trainLoop_succ, trainEpoch_lastMAP]
    simp

theorem trainLoop_saveOk_indep (v : Nat → ℚ) (ok1 ok2 : Nat → Bool)
    (d0 : Option Nat) (N : Nat) :
    (trainLoop v ok1 d0 N).highest = (trainLoop v ok2 d0 N).highest
    ∧ (trainLoop v ok1 d0 N).lastMAP = (trainLoop v ok2 d0 N).lastMAP
    ∧ (trainLoop v ok1 d0 N).epochsRun = (trainLoop v ok2 d0 N).epochsRun
    ∧ (trainLoop v ok1 d0 N).calls = (trainLoop v ok2 d0 N).calls := by
  refine ⟨?_, ?_, ?_, ?_⟩
  · rw [trainLoop_highest, trainLoop_highest]
  · cases N with
    | zero => rfl
    | succ n =>
      rw [trainLoop_lastMAP v ok1 d0 (n + 1) (Nat.succ_pos n),
          trainLoop_lastMAP v ok2 d0 (n + 1) (Nat.succ_pos n)]
  · rw [trainLoop_epochsRun, trainLoop_epochsRun]
  · induction N with
    | zero => rfl
    | succ n ih =>
      rw [trainLoop_succ, trainLoop_succ, trainEpoch_calls, trainEpoch_calls, ih]

theorem trainLoop_disk_spec (v : Nat → ℚ) (N : Nat) :
    ((trainLoop v allSavesOk none N).disk = none → ∀ j, j < N → v j ≤ 0)
    ∧ (∀ w, (trainLoop v allSavesOk none N).disk = some w →
        w < N ∧ v w = runMax v N ∧ 0 < v w) := by
  induction N with
  | zero =>
    constructor
    · intro _ j hj
      omega
    · intro w hw
      cases hw
  | succ n ih =>
    rw [trainLoop_succ]
    by_cases h : v n > (trainLoop v allSavesOk none n).highest
    · have hd := trainEpoch_disk_of_gt_true v allSavesOk _ n h rfl
      have hgt : runMax v n < v n := by
        rw [trainLoop_highest] at h
        exact h
      constructor
      · intro h0
        rw [hd] at h0
        cases h0
      · intro w hw
        rw [hd] at hw
        injection hw with hw
        subst hw
        refine ⟨Nat.lt_succ_self n, ?_, ?_⟩
        · rw [runMax_succ]
          exact (max_eq_right (le_of_lt hgt)).symm
        · exact lt_of_le_of_lt (runMax_nonneg v n) hgt
    · have hd := trainEpoch_disk_of_not_gt v allSavesOk _ n h
      have hle : v n ≤ runMax v n := by
        rw [trainLoop_highest] at h
        exact not_lt.mp h
      constructor
      · intro h0 j hj
        rw [hd] at h0
        rcases Nat.lt_succ_iff_lt_or_eq.mp hj with h' | h'
        · exact ih.1 h0 j h'
        · subst h'
          exact le_trans hle (runMax_le v j le_rfl (ih.1 h0))
      · intro w hw
        rw [hd] at hw
        obtain ⟨hwn, hwm, hwp⟩ := ih.2 w hw
        refine ⟨Nat.lt_succ_of_lt hwn, ?_, hwp⟩
        rw [runMax_succ, max_eq_left hle]
        exact hwm

theorem trainLoop_saved_iff (v : Nat → ℚ) (i : Nat) :
    (trainLoop v allSavesOk none (i + 1)).disk = some i ↔ runMax v i < v i := by
  rw [trainLoop_succ]
  by_cases h : v i > (trainLoop v allSavesOk none i).highest
  · rw [trainEpoch_disk_of_gt_true v allSavesOk _ i h rfl]
    rw [trainLoop_highest] at h
    simp [h]
  · rw [trainEpoch_disk_of_not_gt v allSavesOk _ i h]
    rw [trainLoop_highest] at h
    constructor
    · intro hw
      obtain ⟨hwi, _, _⟩ := (trainLoop_disk_spec v i).2 i hw
      omega
    · intro hlt
      exact absurd hlt h

theorem trainLoop_disk_none (v : Nat → ℚ) (ok : Nat → Bool) (N : Nat)
    (h : ∀ i, i < N → v i ≤ 0 ∨ ok i = false) :
    (trainLoop v ok none N).disk = none := by
  induction N with
  | zero => rfl
  | succ n ih =>
    have hn := ih fun i hi => h i (Nat.lt_succ_of_lt hi)
    rw [trainLoop_succ]
    rcases h n (Nat.lt_succ_self n) with hv | hok
    · have hng : ¬ v n > (trainLoop v ok none n).highest := by
        rw [trainLoop_highest]
        exact not_lt.mpr (le_trans hv (runMax_nonneg v n))
      rw [trainEpoch_disk_of_not_gt v ok _ n hng, hn]
    · rw [trainEpoch_disk_of_false v ok _ n hok, hn]

/-! ### Claim theorems -/

/-- C1: in `train()`, the value printed under the key `test_mAP` equals the
validation mAP of the last epoch — the loop variable `mAP` — and not the
score of the test-set evaluation pass: the report is the same whatever
score (`t2`) the test evaluation would have produced. -/
theorem C1_test_report_reuses_last_val_mAP (N : Nat) (v : Nat → ℚ)
    (ok : Nat → Bool) (t : ℚ) (d0 : Option Nat) (r : TrainReport)
    (h : train N v ok t d0 = .ok r) :
    r.test_mAP = v (N - 1) ∧ ∀ t2, train N v ok t2 d0 = .ok r := by
  have hindep : ∀ t2, train N v ok t2 d0 = train N v ok t d0 := fun _ => rfl
  refine ⟨?_, fun t2 => (hindep t2).trans h⟩
  simp only [train] at h
  split at h
  · cases h
  next w hw =>
    split at h
    next hm => cases h
    next m hm =>
      have hr := (Except.ok.inj h).symm
      cases N with
      | zero =>
        rw [trainLoop_zero] at hm
        cases hm
      | succ n =>
        rw [trainLoop_lastMAP v ok d0 (n + 1) (Nat.succ_pos n)] at hm
        injection hm with hm
        rw [hr]
        simpa using hm.symm

theorem C1_witness :
    ({ test_mAP := 1, loadedEpoch := 0,
       calls := [⟨.model, .valloader, true⟩, ⟨.model, .testloader, false⟩] } :
        TrainReport).test_mAP = (fun _ => (1 : ℚ)) (1 - 1) :=
  (C1_test_report_reuses_last_val_mAP 1 (fun _ => (1 : ℚ)) (fun _ => true) 7 none
    { test_mAP := 1, loadedEpoch := 0,
      calls := [⟨.model, .valloader, true⟩, ⟨.model, .testloader, false⟩] }
    (by rfl)).1

/-- The all-zero validation-mAP sequence. -/
def c2zero : Nat → ℚ := fun _ => 0

/-- C2 counterexample: with validation mAP sequence `[0]`, one epoch, every
save succeeding and no pre-existing checkpoint, no checkpoint is written
(the file stays absent), although epoch 0's mAP is vacuously strictly
greater than all mAPs of earlier epochs — refuting the claimed
"overwritten iff strictly greater than all earlier validation mAPs". -/
theorem C2_counterexample :
    (trainLoop c2zero allSavesOk none 1).disk = none
    ∧ ¬ (((trainLoop c2zero allSavesOk none 1).disk = some 0) ↔
          ∀ j, j < 0 → c2zero j < c2zero 0) := by
  decide

/-- C2 (amended): the checkpoint is overwritten in epoch `i` iff that
epoch's validation mAP is strictly greater than 0 (the initial
`highest_mAP`) and strictly greater than all earlier epochs' validation
mAPs; hence after `N` epochs, provided some epoch attained a positive mAP,
the persisted checkpoint corresponds to an epoch attaining the maximum
observed validation mAP among epochs `0..N-1` (all saves succeeding and no
pre-existing checkpoint). -/
theorem C2_best_checkpoint_amended (N : Nat) (v : Nat → ℚ)
    (hpos : ∃ i, i < N ∧ 0 < v i) :
    (∀ i, i < N →
       (((trainLoop v allSavesOk none (i + 1)).disk = some i) ↔
         (0 < v i ∧ ∀ j, j < i → v j < v i)))
    ∧ ∃ w, w < N ∧ (trainLoop v allSavesOk none N).disk = some w
        ∧ ∀ j, j < N → v j ≤ v w := by
  constructor
  · intro i _
    rw [trainLoop_saved_iff, runMax_lt_iff]
  · obtain ⟨i, hiN, hi⟩ := hpos
    cases hd : (trainLoop v allSavesOk none N).disk with
    | none => exact absurd hi (not_lt.mpr ((trainLoop_disk_spec v N).1 hd i hiN))
    | some w =>
      obtain ⟨hwN, hwm, _⟩ := (trainLoop_disk_spec v N).2 w hd
      refine ⟨w, hwN, rfl, fun j hj => ?_⟩
      rw [hwm]
      exact le_runMax v hj

/-- The spec's scenario sequence `[0.5, 0.7, 0.6]`. -/
def c2seq : Nat → ℚ := fun i =>
  if i = 0 then 1/2 else if i = 1 then 7/10 else if i = 2 then 3/5 else 0

theorem C2_witness :
    (∀ i, i < 3 →
       (((trainLoop c2seq allSavesOk none (i + 1)).disk = some i) ↔
         (0 < c2seq i ∧ ∀ j, j < i → c2seq j < c2seq i)))
    ∧ ∃ w, w < 3 ∧ (trainLoop c2seq allSavesOk none 3).disk = some w
        ∧ ∀ j, j < 3 → c2seq j ≤ c2seq w :=
  C2_best_checkpoint_amended 3 c2seq ⟨0, by norm_num, by norm_num [c2seq]⟩

/-- C3: `eval()` never raises on a checkpoint-load problem: whether the
checkpoint file is present (`some sd`) or absent/unreadable (`none`), the
evaluation object is invoked exactly once on the test loader; when absent
the warning is printed and the in-memory weights are kept; when present
the non-strict load reports exactly the missing and unexpected keys. -/
theorem C3_eval_load_never_raises (sd model : StateDict) :
    (evalTask none model).calls = [⟨.testloader, .model, false⟩]
    ∧ (evalTask (some sd) model).calls = [⟨.testloader, .model, false⟩]
    ∧ (evalTask none model).warnedFallback = true
    ∧ (evalTask none model).finalModel = model
    ∧ (evalTask (some sd) model).warnedFallback = false
    ∧ (∀ k, k ∈ (evalTask (some sd) model).missing ↔
        (k ∈ model.map Prod.fst ∧ sdLookup sd k = none))
    ∧ (∀ k, k ∈ (evalTask (some sd) model).unexpected ↔
        (k ∈ sd.map Prod.fst ∧ sdLookup model k = none)) := by
  refine ⟨rfl, rfl, rfl, rfl, rfl, ?_, ?_⟩
  · intro k
    simp [evalTask, List.mem_filter, Option.isNone_iff_eq_none]
  · intro k
    simp [evalTask, List.mem_filter, Option.isNone_iff_eq_none]

/-- C4: in train mode `prepare` builds exactly the pipelines
`train, evalu` and exactly three loaders over the train/val/test splits,
all with the train-settings batch size; in test mode exactly the pipeline
`evalu` and one loader over the test split with the eval-settings batch
size. -/
theorem C4_prepare_loaders_and_pipelines (tb eb : Nat) (hc : String → Bool) :
    (prepare "train" tb eb hc).error = none
    ∧ pipelinesOf (prepare "train" tb eb hc) = ["train", "evalu"]
    ∧ (loadersOf (prepare "train" tb eb hc)).map (fun c => (c.split, c.batch_size))
        = [("train", tb), ("val", tb), ("test", tb)]
    ∧ (prepare "test" tb eb hc).error = none
    ∧ pipelinesOf (prepare "test" tb eb hc) = ["evalu"]
    ∧ (loadersOf (prepare "test" tb eb hc)).map (fun c => (c.split, c.batch_size))
        = [("test", eb)] := by
  rw [prepare_train_eq, prepare_test_eq]
  exact ⟨rfl, rfl, rfl, rfl, rfl, rfl⟩

/-- C5: when the training set supplies no collation function, train-mode
`prepare` does not raise and all three loaders use the default batcher;
moreover only the training set's collation function is consulted: two
collation environments agreeing on the `train` split yield identical
`prepare` outcomes. -/
theorem C5_collate_fallback (tb eb : Nat) (hc h1 h2 : String → Bool)
    (hno : hc "train" = false) (h12 : h1 "train" = h2 "train") :
    (prepare "train" tb eb hc).error = none
    ∧ (loadersOf (prepare "train" tb eb hc)).map LoaderCfg.usesDefaultCollate
        = [true, true, true]
    ∧ prepare "train" tb eb h1 = prepare "train" tb eb h2 := by
  refine ⟨?_, ?_, ?_⟩
  · rw [prepare_train_eq]
  · rw [prepare_train_eq]
    simp [loadersOf, hno]
  · rw [prepare_train_eq, prepare_train_eq, h12]

theorem C5_witness :
    (prepare "train" 4 2 (fun _ => false)).error = none
    ∧ (loadersOf (prepare "train" 4 2 (fun _ => false))).map
        LoaderCfg.usesDefaultCollate = [true, true, true]
    ∧ prepare "train" 4 2 (fun _ => true)
        = prepare "train" 4 2 (fun s => s == "train") :=
  C5_collate_fallback 4 2 (fun _ => false) (fun _ => true)
    (fun s => s == "train") rfl (by decide)

/-- C6: at the evaluation-object call in `eval()`, the arguments are passed
positionally as `(testloader, model)`: the object bound to the contract's
`model` parameter is the test loader, not the model, and `get_mAP` is not
read afterwards — the code diverges from the claimed `(model, dataloader)`
contract. -/
theorem C6_eval_call_swaps_arguments :
    (evalTask none [("weight", 0)]).calls = [⟨.testloader, .model, false⟩]
    ∧ ¬ (∀ c ∈ (evalTask none [("weight", 0)]).calls,
          c.toModelParam = .model ∧ c.getMAPAfter = true) := by
  decide

/-- C7: `prepare` returns normally exactly for modes `train` and `test`,
and whenever it raises the invalid-configuration error it has built no
component at all (the event list is empty). -/
theorem C7_invalid_mode_raises_immediately (mode : String) (tb eb : Nat)
    (hc : String → Bool) :
    ((prepare mode tb eb hc).error = none ↔ (mode = "train" ∨ mode = "test"))
    ∧ ((prepare mode tb eb hc).events = [] ∨ (prepare mode tb eb hc).error = none) := by
  by_cases h1 : mode = "train"
  · subst h1
    rw [prepare_train_eq]
    simp
  · by_cases h2 : mode = "test"
    · subst h2
      rw [prepare_test_eq]
      simp
    · rw [prepare_invalid_eq mode tb eb hc ⟨h1, h2⟩]
      simp [h1, h2]

/-- C8: a checkpoint-save failure never interrupts the loop and never
changes the score bookkeeping: `highest_mAP`, the loop variable `mAP` and
the validation-call trace are identical under any two save-success
patterns, and the loop always runs all `N` epochs. -/
theorem C8_save_failure_nonfatal (N : Nat) (v : Nat → ℚ)
    (ok1 ok2 : Nat → Bool) (d0 : Option Nat) :
    (trainLoop v ok1 d0 N).highest = (trainLoop v ok2 d0 N).highest
    ∧ (trainLoop v ok1 d0 N).lastMAP = (trainLoop v ok2 d0 N).lastMAP
    ∧ (trainLoop v ok1 d0 N).calls = (trainLoop v ok2 d0 N).calls
    ∧ (trainLoop v ok1 d0 N).epochsRun = N := by
  obtain ⟨h1, h2, _, h4⟩ := trainLoop_saveOk_indep v ok1 ok2 d0 N
  exact ⟨h1, h2, h4, trainLoop_epochsRun v ok1 d0 N⟩

/-- C9: the checkpoint path is the same deterministic function of the
weight directory and the project name at the save site, the end-of-training
reload site and the evaluation load site, and (for a weight directory that
is nonempty and not `/`-terminated) equals
`{d_weight}/{project}-model-highest.pth`. -/
theorem C9_checkpoint_path_deterministic (d p : String) (h1 : d ≠ "")
    (h2 : endsWithSlash d = false) (h3 : startsWithSlash (weightName p) = false) :
    savePath d p = finalLoadPath d p
    ∧ finalLoadPath d p = evalLoadPath d p
    ∧ savePath d p = d ++ "/" ++ p ++ "-model-highest.pth" := by
  refine ⟨rfl, rfl, ?_⟩
  show osPathJoin d (weightName p) = _
  unfold osPathJoin
  rw [if_neg (by simp [h3]), if_neg (by simp [h1, h2])]
  unfold weightName
  rw [← String.append_assoc]

theorem C9_witness :
    savePath "weights" "InstanceAttributeRecognitionProject"
        = finalLoadPath "weights" "InstanceAttributeRecognitionProject"
    ∧ finalLoadPath "weights" "InstanceAttributeRecognitionProject"
        = evalLoadPath "weights" "InstanceAttributeRecognitionProject"
    ∧ savePath "weights" "InstanceAttributeRecognitionProject"
        = "weights" ++ "/" ++ "InstanceAttributeRecognitionProject"
            ++ "-model-highest.pth" :=
  C9_checkpoint_path_deterministic "weights" "InstanceAttributeRecognitionProject"
    (by decide) (by decide) (by decide)

/-- C10: the end-of-training reload is unguarded: in a run starting with no
checkpoint file in which every epoch either scores a validation mAP of at
most 0 or fails its save attempt, the loop still runs all `N` epochs, the
checkpoint file stays absent, and `train` terminates with the
file-not-found error instead of reporting a test result. -/
theorem C10_final_load_unguarded (N : Nat) (v : Nat → ℚ) (ok : Nat → Bool)
    (t : ℚ) (h : ∀ i, i < N → v i ≤ 0 ∨ ok i = false) :
    (trainLoop v ok none N).epochsRun = N
    ∧ (trainLoop v ok none N).disk = none
    ∧ train N v ok t none = .error fileNotFoundMsg := by
  have hd := trainLoop_disk_none v ok N h
  refine ⟨trainLoop_epochsRun v ok none N, hd, ?_⟩
  simp only [train, hd]

theorem C10_witness :
    (trainLoop (fun _ => (0 : ℚ)) (fun _ => true) none 2).epochsRun = 2
    ∧ (trainLoop (fun _ => (0 : ℚ)) (fun _ => true) none 2).disk = none
    ∧ train 2 (fun _ => (0 : ℚ)) (fun _ => true) 5 none = .error fileNotFoundMsg :=
  C10_final_load_unguarded 2 (fun _ => (0 : ℚ)) (fun _ => true) 5
    (fun _ _ => Or.inl le_rfl)

end Seal
